import Mathlib

/-!
Verification development for the Greek court-judgment conversion pipeline.

This file gives a shallow embedding, in Lean 4, of the parts of the
repository that the specification claims talk about:

* `text_to_json.py` — month table, ISO-date emission, outcome extraction,
  heuristic segmentation (`MONTHS`, `to_iso_date`, `OUTCOME_VERBS`,
  `extract_outcome`, `find_first`, `segment_text`);
* `areiosPagosAknCliLegacyFast.py` / `createAreiosPagosJudgmentsAkn.py` —
  the `_add_date` helper, the decision-publication-date cascade, the
  per-file status machine, and the metadata extraction that the legacy
  and the parallel CLI perform;
* `steAknCliLegacyFast.py` / `createCouncilOfStateJudgmentsAkn.py` —
  `normalize_gr`, `find_index`, the header/introduction override scanner,
  `add_date`, and the per-file status machine.

Python strings are modelled as Lean `String`/`List Char`; machine-level
details (regular-expression search, `str.lower`, NFD folding) are embedded
as executable Lean functions restricted to the alphabet the repository
actually uses (Greek, Latin, ASCII digits and punctuation).  Code of the
repository that is not available (notably `functions.findDatesOfInterest`,
`variables.py` patterns and the ANTLR grammar collaborators) is modelled
from the specification; each such definition carries a doc comment that
starts with `Modelled from the spec:`.
-/

/-! ## Python string primitives -/

/-- Whitespace characters recognised by Python `str.strip` (restricted to
the ASCII whitespace that appears in the repository inputs). -/
def isPySpace (c : Char) : Bool :=
  c == ' ' || c == '\t' || c == '\n' || c == '\r' || c == '\x0b' || c == '\x0c'

/-- Python `str.strip()` on a list of characters. -/
def pyStripList (l : List Char) : List Char :=
  ((l.dropWhile isPySpace).reverse.dropWhile isPySpace).reverse

/-- Python `str.strip()` on a string. -/
def pyStrip (s : String) : String :=
  ⟨pyStripList s.data⟩

/-- Lower-case mapping of Python `str.lower`, restricted to the Greek and
Latin letters used by the repository (the final-sigma context rule is not
needed on any input considered here: upper-case sigma never occurs). -/
def pyLowerChar (c : Char) : Char :=
  match c with
  | 'Α' => 'α' | 'Β' => 'β' | 'Γ' => 'γ' | 'Δ' => 'δ' | 'Ε' => 'ε'
  | 'Ζ' => 'ζ' | 'Η' => 'η' | 'Θ' => 'θ' | 'Ι' => 'ι' | 'Κ' => 'κ'
  | 'Λ' => 'λ' | 'Μ' => 'μ' | 'Ν' => 'ν' | 'Ξ' => 'ξ' | 'Ο' => 'ο'
  | 'Π' => 'π' | 'Ρ' => 'ρ' | 'Σ' => 'σ' | 'Τ' => 'τ' | 'Υ' => 'υ'
  | 'Φ' => 'φ' | 'Χ' => 'χ' | 'Ψ' => 'ψ' | 'Ω' => 'ω'
  | 'Ά' => 'ά' | 'Έ' => 'έ' | 'Ή' => 'ή' | 'Ί' => 'ί' | 'Ό' => 'ό'
  | 'Ύ' => 'ύ' | 'Ώ' => 'ώ' | 'Ϊ' => 'ϊ' | 'Ϋ' => 'ϋ'
  | _ =>
    if 'A' ≤ c ∧ c ≤ 'Z' then Char.ofNat (c.toNat + 32) else c

/-- Accent folding: the composition of Unicode NFD with removal of
combining marks, per precomposed Greek character (lower-case side). -/
def foldAccentChar (c : Char) : Char :=
  match c with
  | 'ά' => 'α' | 'έ' => 'ε' | 'ή' => 'η' | 'ί' => 'ι' | 'ό' => 'ο'
  | 'ύ' => 'υ' | 'ώ' => 'ω' | 'ϊ' => 'ι' | 'ϋ' => 'υ' | 'ΐ' => 'ι'
  | 'ΰ' => 'υ'
  | _ => c

/-- Membership in the Greek alphabet (both cases, accented forms and the
final sigma) as used by the repository texts. -/
def isGreekLetter (c : Char) : Bool :=
  ('α' ≤ c && c ≤ 'ω') || ('Α' ≤ c && c ≤ 'Ω') ||
  c == 'ά' || c == 'έ' || c == 'ή' || c == 'ί' || c == 'ό' || c == 'ύ' ||
  c == 'ώ' || c == 'ϊ' || c == 'ϋ' || c == 'ΐ' || c == 'ΰ' ||
  c == 'Ά' || c == 'Έ' || c == 'Ή' || c == 'Ί' || c == 'Ό' || c == 'Ύ' ||
  c == 'Ώ' || c == 'Ϊ' || c == 'Ϋ' || c == 'ς'

/-- Word characters of a Python regular expression class `\w` (Unicode
mode), restricted to the alphabet the repository uses: ASCII
alphanumerics, the underscore, and Greek letters. -/
def isWordChar (c : Char) : Bool :=
  c.isAlphanum || c == '_' || isGreekLetter c

/-- Value of a list of decimal digit characters, most significant first,
as computed by Python `int`. -/
def digitsToNat (l : List Char) : Nat :=
  l.foldl (fun a c => 10 * a + (c.toNat - 48)) 0

/-- Python `int(s)` for a candidate decimal string: defined (`some`) when
the string is a non-empty run of ASCII digits, `none` otherwise — the
`none` case models the `ValueError` that the callers catch.  (Signs and
surrounding whitespace, which the repository never feeds to `int`, are not
modelled.) -/
def pyIntOfString (s : String) : Option Nat :=
  if s.data ≠ [] ∧ s.data.all Char.isDigit then some (digitsToNat s.data) else none

/-- Decimal digit characters of a natural number, most significant
first, computed with an explicit recursion budget (structural, so that
proofs can evaluate it); the budget `n + 1` of `natDigits` always
suffices. -/
def natDigitsFuel : Nat → Nat → List Char
  | 0, _ => []
  | fuel + 1, n =>
    if n < 10 then [Char.ofNat (48 + n)]
    else natDigitsFuel fuel (n / 10) ++ [Char.ofNat (48 + n % 10)]

/-- Decimal digit characters of a natural number, most significant
first. -/
def natDigits (n : Nat) : List Char :=
  natDigitsFuel (n + 1) n

/-- Python format `f-string` zero padding `0wd`: the decimal digits of
`n`, left padded with zeros up to width `w` (never truncating). -/
def padZ (w : Nat) (n : Nat) : String :=
  ⟨List.replicate (w - (natDigits n).length) '0' ++ natDigits n⟩

/-- Python slice `t[a:b]` for non-negative bounds (clamping as Python
does). -/
def pySlice (t : List Char) (a b : Nat) : List Char :=
  (t.take b).drop a

/-- Python `str.split(" ", 1)`: the part before the first space and, when
a space exists, the part after it. -/
def pySplitOnceSpace (s : String) : String × Option String :=
  match s.data.splitOn ' ' with
  | [] => (s, none)
  | [_] => (s, none)
  | x :: rest => (⟨x⟩, some ⟨List.intercalate [' '] rest⟩)

/-- Python `str.splitlines()` restricted to `\n` separators: pieces
between newlines, with the piece after a final newline dropped when it is
empty (exactly the Python behaviour on the inputs considered, which use
only `\n`). -/
def pySplitLines (t : List Char) : List (List Char) :=
  if t = [] then []
  else
    let parts := t.splitOn '\n'
    if t.getLast? = some '\n' then parts.dropLast else parts

/-- Substring containment test (Python `needle in hay`). -/
def containsSub (needle hay : List Char) : Bool :=
  hay.tails.any (fun s => needle.isPrefixOf s)

/-- Python `s.startswith(pre)`. -/
def pyStartsWith (s pre : String) : Bool :=
  pre.data.isPrefixOf s.data

/-- Left-to-right, non-overlapping split of a character list on a
non-empty separator sequence (the behaviour of Python `str.split(sep)`);
`acc` carries the reversed current piece. -/
def splitOnSubAux (sep : List Char) : Nat → List Char → List Char → List (List Char)
  | 0, l, acc => [acc.reverse ++ l]
  | _ + 1, [], acc => [acc.reverse]
  | fuel + 1, c :: rest, acc =>
    if sep ≠ [] ∧ sep.isPrefixOf (c :: rest) then
      acc.reverse :: splitOnSubAux sep fuel ((c :: rest).drop sep.length) []
    else
      splitOnSubAux sep fuel rest (c :: acc)

/-- Python `s.split(sep)` for a non-empty separator; the recursion budget
of `splitOnSubAux` always suffices, since each step consumes at least one
character. -/
def pySplitOnStr (sep s : String) : List String :=
  (splitOnSubAux sep.data (s.data.length + 1) s.data []).map (fun l => ⟨l⟩)

/-! ## text_to_json.py — month table and ISO date emission -/

/-- MONTHS table of `text_to_json.py`, verbatim: lower-cased spellings
(accented, unaccented and listed alternates) to two-digit month codes. -/
def MONTHS : List (String × String) :=
  [("ιανουαρίου", "01"), ("ιουανουαριου", "01"), ("ιανουαριου", "01"),
   ("φεβρουαρίου", "02"), ("φεβρουαριου", "02"),
   ("μαρτίου", "03"), ("μαρτιου", "03"),
   ("απριλίου", "04"), ("απριλιου", "04"),
   ("μαΐου", "05"), ("μαιου", "05"), ("μάϊου", "05"), ("μαϊου", "05"),
   ("ιουνίου", "06"), ("ιουνιου", "06"),
   ("ιουλίου", "07"), ("ιουλιου", "07"),
   ("αυγούστου", "08"), ("αυγουστου", "08"),
   ("σεπτεμβρίου", "09"), ("σεπτεμβριου", "09"),
   ("οκτωβρίου", "10"), ("οκτωβριου", "10"),
   ("νοεμβρίου", "11"), ("νοεμβριου", "11"),
   ("δεκεμβρίου", "12"), ("δεκεμβριου", "12")]

/-- Lookup in the MONTHS table (`MONTHS.get(mkey)`). -/
def lookupMonth (k : String) : Option String :=
  (MONTHS.find? (fun p => p.1 == k)).map (fun p => p.2)

/-- Normalisation applied to the month token inside `to_iso_date`:
`nfc(month_token).lower()` followed by `re.sub` removal of non-word
characters.  The repository inputs are already NFC, so `nfc` is the
identity here. -/
def normalizeMonthKey (m : String) : String :=
  ⟨(m.data.map pyLowerChar).filter isWordChar⟩

/-- Embedding of `to_iso_date(day, month_token, year)` from
`text_to_json.py` lines 57-67: strip non-digits from the day token
(`int` raising on an empty result, caught as `None`), normalise and look
up the month token (`None` when absent), then emit
`f-string` `{int(year):04d}-{m}-{d:02d}`. -/
def to_iso_date (day month year : String) : Option String :=
  match pyIntOfString ⟨day.data.filter Char.isDigit⟩ with
  | none => none
  | some d =>
    match lookupMonth (normalizeMonthKey month) with
    | none => none
    | some m =>
      match pyIntOfString year with
      | none => none
      | some y => some (padZ 4 y ++ "-" ++ m ++ "-" ++ padZ 2 d)

/-- Spelling groups used to state the month-normalisation claim: for each
of the 12 months, the accented, unaccented and listed alternate spellings
(from the MONTHS table), together with their capitalised forms and a
punctuated variant. -/
def monthSpellGroups : List (List String × String) :=
  [(["Ιανουαρίου", "ιανουαρίου", "Ιανουαριου", "ιανουαριου", "ιουανουαριου"], "01"),
   (["Φεβρουαρίου", "φεβρουαρίου", "Φεβρουαριου", "φεβρουαριου"], "02"),
   (["Μαρτίου", "μαρτίου", "Μαρτιου", "μαρτιου"], "03"),
   (["Απριλίου", "απριλίου", "Απριλιου", "απριλιου"], "04"),
   (["Μαΐου", "μαΐου", "Μαιου", "μαιου", "Μάϊου", "μάϊου", "Μαϊου", "μαϊου", "Μαΐου,"], "05"),
   (["Ιουνίου", "ιουνίου", "Ιουνιου", "ιουνιου"], "06"),
   (["Ιουλίου", "ιουλίου", "Ιουλιου", "ιουλιου"], "07"),
   (["Αυγούστου", "αυγούστου", "Αυγουστου", "αυγουστου"], "08"),
   (["Σεπτεμβρίου", "σεπτεμβρίου", "Σεπτεμβριου", "σεπτεμβριου"], "09"),
   (["Οκτωβρίου", "οκτωβρίου", "Οκτωβριου", "οκτωβριου"], "10"),
   (["Νοεμβρίου", "νοεμβρίου", "Νοεμβριου", "νοεμβριου"], "11"),
   (["Δεκεμβρίου", "δεκεμβρίου", "Δεκεμβριου", "δεκεμβριου"], "12")]

/-- Shape test for an ISO calendar-date string `YYYY-MM-DD`: ten
characters, dashes at positions 4 and 7, decimal digits elsewhere. -/
def isIsoShape (s : String) : Bool :=
  match s.data with
  | [y1, y2, y3, y4, h1, m1, m2, h2, d1, d2] =>
    y1.isDigit && y2.isDigit && y3.isDigit && y4.isDigit &&
    h1 == '-' && m1.isDigit && m2.isDigit && h2 == '-' &&
    d1.isDigit && d2.isDigit
  | _ => false

/-! ## text_to_json.py — outcome extraction -/

/-- OUTCOME_VERBS of `text_to_json.py`, verbatim, as character lists. -/
def OUTCOME_VERBS : List (List Char) :=
  ["Απορρίπτει".data, "Αναιρεί".data, "Δέχεται".data, "Παραπέμπει".data,
   "Κηρύσσει".data, "Καταδικάζει".data, "Επιβάλλει".data, "Διατάσσει".data]

/-- Attempted match of the pattern `verb[^.\n]*[.\n]` at the head of
`t`: the verb, then the longest run free of a period or newline, then the
terminating period or newline. -/
def verbMatchAt (verb t : List Char) : Option (List Char) :=
  if verb.isPrefixOf t then
    let rest := t.drop verb.length
    let body := rest.takeWhile (fun c => !(c == '.') && !(c == '\n'))
    match rest.drop body.length with
    | term :: _ =>
      if term == '.' || term == '\n' then some (verb ++ body ++ [term]) else none
    | [] => none
  else none

/-- Leftmost search of `re.search` for the pattern `verb[^.\n]*[.\n]`:
the match at the first position where one exists. -/
def reSearchVerb (verb : List Char) : List Char → Option (List Char)
  | [] => verbMatchAt verb []
  | c :: rest =>
    match verbMatchAt verb (c :: rest) with
    | some m => some m
    | none => reSearchVerb verb rest

/-- Loop of `extract_outcome` over the verb list: the search result of
the first verb, in list order, whose pattern matches anywhere. -/
def firstVerbHit (verbs : List (List Char)) (t : List Char) : Option (List Char) :=
  verbs.findSome? (fun v => reSearchVerb v t)

/-- Fallback of `extract_outcome`: the first line whose strip is
non-empty, stripped. -/
def firstNonBlankLine (t : List Char) : Option (List Char) :=
  (pySplitLines t).findSome?
    (fun l => let s := pyStripList l; if s.isEmpty then none else some s)

/-- Embedding of `extract_outcome(decision_text)` from `text_to_json.py`
lines 187-200: `None` on an empty span; otherwise the first verb of
OUTCOME_VERBS (in list order) whose sentence pattern matches, stripped;
otherwise the first non-blank line; otherwise `None`. -/
def extract_outcome (t : List Char) : Option (List Char) :=
  if t = [] then none
  else
    match firstVerbHit OUTCOME_VERBS t with
    | some m => some (pyStripList m)
    | none => firstNonBlankLine t

/-- Document-order reading of the outcome rule that the specification
sentence states: at each position of the span, in document order, try
every verb of the list; the first position carrying a match wins. -/
def earliestVerbMatch (verbs : List (List Char)) : List Char → Option (List Char)
  | [] => verbs.findSome? (fun v => verbMatchAt v [])
  | c :: rest =>
    match verbs.findSome? (fun v => verbMatchAt v (c :: rest)) with
    | some m => some m
    | none => earliestVerbMatch verbs rest

/-- Terminator test: the match of a verb pattern ends in a period or a
newline. -/
def lastIsTerm (l : List Char) : Bool :=
  match l.getLast? with
  | some c => c == '.' || c == '\n'
  | none => false

/-! ## text_to_json.py — heuristic segmentation -/

/-- Search function abstraction for one compiled marker pattern: the
start offset of its leftmost occurrence in the text, or `none`.  The
marker regexes themselves live in `text_to_json.py` lines 79-95; their
search engines are abstracted as functions so segmentation facts hold for
every marker behaviour. -/
def RePattern : Type := List Char → Option Nat

/-- Embedding of `find_first(text, patterns)` from `text_to_json.py`
lines 105-110: the start of the first pattern, in list order, that
matches, and `-1` when none does. -/
def find_first (text : List Char) (patterns : List RePattern) : Int :=
  match patterns with
  | [] => -1
  | p :: ps =>
    match p text with
    | some i => (i : Int)
    | none => find_first text ps

/-- Section record returned by `segment_text`. -/
structure Segments where
  introduction : List Char
  motivation : List Char
  decision_text : List Char
  conclusions : List Char
  deriving DecidableEq

/-- Embedding of `segment_text(text)` from `text_to_json.py` lines
155-185, parametric in the three marker-pattern lists: marker offsets
default to end-of-text when not found; the four sections are the stripped
slices bounded by the offsets, guarded exactly as in the source. -/
def segment_text (mot dec conc : List RePattern) (text : List Char) : Segments :=
  let n : Int := text.length
  let iMot0 := find_first text mot
  let iDec0 := find_first text dec
  let iConc0 := find_first text conc
  let iMot := if iMot0 = -1 then n else iMot0
  let iDec := if iDec0 = -1 then n else iDec0
  let iConc := if iConc0 = -1 then n else iConc0
  let intro := pyStripList (pySlice text 0 (min iMot (min iDec iConc)).toNat)
  let motEnd := min iDec (min iConc n)
  let motivation :=
    if iMot < n then pyStripList (pySlice text iMot.toNat motEnd.toNat) else []
  let decEnd := min iConc n
  let decision :=
    if iDec < n then pyStripList (pySlice text iDec.toNat decEnd.toNat) else []
  let conclusions :=
    if iConc < n then pyStripList (pySlice text iConc.toNat text.length) else []
  ⟨intro, motivation, decision, conclusions⟩

/-! ## Dates of interest — resolver and side effects

The helper `findDatesOfInterest` lives in `functions.py`, which is not
part of the sources; only its call sites are.  It is modelled here from
the specification (section 4.2): a kind-specific pattern is applied to
the text of a region; on success an ISO date plus provenance is emitted —
a workflow step, a reference entry — and the matched date text of the
region is wrapped in a `date` element carrying the kind in `refersTo`
(the wrapped form is what `insertToDb.py` reads back and what the cascade
guards in the CLI scripts query).  The kind-specific regular expression
(from the missing `variables.py`) is abstracted as a resolver function
from region text to an optional ISO date. -/

/-- Resolver abstraction of one compiled date pattern: region text to the
resolved ISO date, or `none` when the pattern does not match. -/
def Resolver : Type := String → Option String

/-- Workflow step element (`<step date=... refersTo=.../>`). -/
structure Step where
  kind : String
  date : String
  deriving DecidableEq

/-- Reference entry (a TLC element appended to `references`). -/
structure TLCRef where
  kind : String
  author : String
  deriving DecidableEq

/-- FRBR date stamp (`FRBRdate` with `date` and `name` attributes). -/
structure FRBRDate where
  date : String
  name : String
  deriving DecidableEq

/-- Date element written into the searched region: `refersTo` kind, ISO
date attribute, and its number of child elements.  The resolver wraps
only the matched date text, so the elements it produces carry zero child
elements. -/
structure DateMark where
  refersTo : String
  date : String
  childCount : Nat
  deriving DecidableEq

/-- Modelled from the spec: `functions.findDatesOfInterest(node, regex,
name, author)` — apply the kind pattern to the region text; on failure a
falsy result; on success the date element to be placed in the region, the
workflow step and the reference entry. -/
def findDatesOfInterest (resolve : Resolver) (regionText kind author : String) :
    Option (DateMark × Step × TLCRef) :=
  match resolve regionText with
  | none => none
  | some iso => some (⟨kind, iso, 0⟩, ⟨kind, iso⟩, ⟨kind, author⟩)

/-- State visible to a single `_add_date` call of
`areiosPagosAknCliLegacyFast.py` lines 54-62 (identically
`createAreiosPagosJudgmentsAkn.py` lines 185-195): the searched node
(text and date marks), the workflow children, the references children and
the two FRBR date stamps. -/
structure DState where
  nodeText : String
  nodeMarks : List DateMark
  wf : List Step
  refs : List TLCRef
  frbrW : FRBRDate
  frbrE : FRBRDate
  deriving DecidableEq

/-- Embedding of the Areios Pagos `_add_date`: on a falsy resolver result
return with no effect; otherwise insert the step at the front of the
workflow, append the reference entry, stamp both FRBR dates, and carry
the date mark placed in the node. -/
def ap_add_date (resolve : Resolver) (kind author : String) (s : DState) : DState :=
  match findDatesOfInterest resolve s.nodeText kind author with
  | none => s
  | some (mark, step, tlc) =>
    { s with
      nodeMarks := s.nodeMarks ++ [mark]
      wf := step :: s.wf
      refs := s.refs ++ [tlc]
      frbrW := ⟨step.date, kind⟩
      frbrE := ⟨step.date, kind⟩ }

/-- State visible to a single `add_date` call of
`steAknCliLegacyFast.py` lines 67-74 (identically
`createCouncilOfStateJudgmentsAkn.py` lines 250-259): as `DState`, but
the references node is optional, matching the call sites there. -/
structure SteDState where
  nodeText : String
  nodeMarks : List DateMark
  wf : List Step
  refs : Option (List TLCRef)
  frbrW : FRBRDate
  frbrE : FRBRDate
  deriving DecidableEq

/-- Embedding of the Council of State `add_date`: as the Areios Pagos
variant, except that the reference entry is appended only when the
references node is present (`if refs_node is not None`). -/
def ste_add_date (resolve : Resolver) (kind author : String) (s : SteDState) : SteDState :=
  match findDatesOfInterest resolve s.nodeText kind author with
  | none => s
  | some (mark, step, tlc) =>
    { s with
      nodeMarks := s.nodeMarks ++ [mark]
      wf := step :: s.wf
      refs := match s.refs with
              | some rs => some (rs ++ [tlc])
              | none => none
      frbrW := ⟨step.date, kind⟩
      frbrE := ⟨step.date, kind⟩ }

/-! ## Areios Pagos decision-publication-date cascade -/

/-- Paragraph child of the conclusions node: its text and the date marks
placed inside it. -/
structure ParaNode where
  ptext : String
  marks : List DateMark
  deriving DecidableEq

/-- Conclusions node: its `p` children and date marks placed at block
level. -/
structure ConclNode where
  paras : List ParaNode
  marks : List DateMark
  deriving DecidableEq

/-- Aggregated text of the conclusions node (`itertext`); wrapping a date
leaves the text unchanged. -/
def conclText (c : ConclNode) : String :=
  String.join (c.paras.map (fun p => p.ptext))

/-- Descendant query `concl.find(".//date[@refersTo=kind]")`: the first
date element of that kind inside the node, or `none`. -/
def findDateDesc (c : ConclNode) (kind : String) : Option DateMark :=
  match c.paras.findSome? (fun p => p.marks.find? (fun m => m.refersTo == kind)) with
  | some m => some m
  | none => c.marks.find? (fun m => m.refersTo == kind)

/-- Python truthiness of `not node.find(...)`: `True` for `None`, and for
a found element the lxml element truth value, which is the presence of
child elements — a childless `date` element is falsy. -/
def pyNotElem (o : Option DateMark) : Bool :=
  match o with
  | none => true
  | some m => m.childCount == 0

/-- Python truthiness of `if node.find(...)`: negation of `pyNotElem`. -/
def pyBoolElem (o : Option DateMark) : Bool :=
  !pyNotElem o

/-- State threaded through the cascade at the call sites of
`areiosPagosAknCliLegacyFast.py` lines 160-173. -/
structure ApConclState where
  concl : ConclNode
  wf : List Step
  refs : List TLCRef
  frbrW : FRBRDate
  frbrE : FRBRDate
  deriving DecidableEq

/-- Call `_add_date(concl, regex, name, ...)` on the whole conclusions
block. -/
def apAddDateConcl (resolve : Resolver) (kind author : String) (s : ApConclState) : ApConclState :=
  match findDatesOfInterest resolve (conclText s.concl) kind author with
  | none => s
  | some (mark, step, tlc) =>
    { s with
      concl := { s.concl with marks := s.concl.marks ++ [mark] }
      wf := step :: s.wf
      refs := s.refs ++ [tlc]
      frbrW := ⟨step.date, kind⟩
      frbrE := ⟨step.date, kind⟩ }

/-- Call `_add_date(p, regex, name, ...)` on paragraph `i` of the
conclusions block. -/
def apAddDatePara (resolve : Resolver) (kind author : String) (i : Nat) (s : ApConclState) : ApConclState :=
  match s.concl.paras.get? i with
  | none => s
  | some p =>
    match findDatesOfInterest resolve p.ptext kind author with
    | none => s
    | some (mark, step, tlc) =>
      { s with
        concl := { s.concl with paras := s.concl.paras.set i { p with marks := p.marks ++ [mark] } }
        wf := step :: s.wf
        refs := s.refs ++ [tlc]
        frbrW := ⟨step.date, kind⟩
        frbrE := ⟨step.date, kind⟩ }

/-- Loop `for p in concl.findall("p")` of the second cascade rule, with
the conditional break `if concl.find(...): break` after each call. -/
def apTryParasLoop (resolve : Resolver) (author : String) :
    List Nat → ApConclState → ApConclState
  | [], s => s
  | i :: rest, s =>
    let s1 := apAddDatePara resolve "decisionPublicationDate" author i s
    if pyBoolElem (findDateDesc s1.concl "decisionPublicationDate") then s1
    else apTryParasLoop resolve author rest s1

/-- Third cascade rule: locate the first paragraph (among all but the
last) containing the literal keyword, call `_add_date` on the immediately
following paragraph, and break. -/
def apKeywordRule (resolve : Resolver) (author : String) (s : ApConclState) : ApConclState :=
  let ps := s.concl.paras
  match (List.range (ps.length - 1)).find?
      (fun i => containsSub "ΔΗΜΟΣΙΕΥΘΗΚΕ".data (ps.getD i ⟨"", []⟩).ptext.data) with
  | some i => apAddDatePara resolve "decisionPublicationDate" author (i + 1) s
  | none => s

/-- Embedding of the decision-publication-date cascade of
`areiosPagosAknCliLegacyFast.py` lines 160-173 (identically
`createAreiosPagosJudgmentsAkn.py` lines 202-216): the whole-block rule,
then — guarded by `if not concl.find(...)` — the per-paragraph loop, then
— again guarded — the keyword rule. -/
def apPubCascade (resolve : Resolver) (author : String) (s : ApConclState) : ApConclState :=
  let s1 := apAddDateConcl resolve "decisionPublicationDate" author s
  let s2 :=
    if pyNotElem (findDateDesc s1.concl "decisionPublicationDate") then
      apTryParasLoop resolve author (List.range s1.concl.paras.length) s1
    else s1
  if pyNotElem (findDateDesc s2.concl "decisionPublicationDate") then
    apKeywordRule resolve author s2
  else s2

/-! ## Council of State — normalisation, anchors and overrides -/

/-- Embedding of `normalize_gr` from `steAknCliLegacyFast.py` lines
56-59: strip, lower-case, then NFD with removal of combining marks
(per-character accent folding on the alphabet used). -/
def normalize_gr (s : String) : String :=
  ⟨(pyStripList s.data).map (fun c => foldAccentChar (pyLowerChar c))⟩

/-- Embedding of `find_index(lines, predicate)` from
`steAknCliLegacyFast.py` lines 61-64: index of the first line satisfying
the predicate, `-1` when none does. -/
def find_index (lines : List String) (p : String → Bool) : Int :=
  match lines.findIdx? p with
  | some i => (i : Int)
  | none => -1

/-- Header fields produced by the override scanner of
`steAknCliLegacyFast.py`. -/
structure HeaderFields where
  docNumber : String
  docProponent : String
  subDepartment : String
  headerDetails : String
  deriving DecidableEq

/-- First index at or after `i` whose line has non-empty strip
(the `while ... not raw_lines[idx].strip()` loops). -/
def skipBlanks (lines : List String) (i : Nat) : Nat :=
  i + ((lines.drop i).takeWhile (fun ln => pyStrip ln == "")).length

/-- First index at or after `i` whose line has empty strip (the
`while j < len(raw_lines) and raw_lines[j].strip()` loop). -/
def skipNonBlanks (lines : List String) (i : Nat) : Nat :=
  i + ((lines.drop i).takeWhile (fun ln => !(pyStrip ln == ""))).length

/-- Embedding of the header-field scanner of `steAknCliLegacyFast.py`
lines 141-158, given the anchor index `idx_num` and the intro anchor
index when present (`introIdx = none` models
`can_override_intro = False`): document number from the anchor line,
proponent and sub-department after skipping blank lines, and header
details accumulated up to the intro anchor — or, without it, up to the
first blank line. -/
def steHeaderFields (raw_lines : List String) (idx_num : Nat) (introIdx : Option Nat) :
    HeaderFields :=
  let orig := pyStrip (raw_lines.getD idx_num "")
  let parts := pySplitOnceSpace orig
  let docNumber := match parts.2 with
                   | some r => pyStrip r
                   | none => ""
  let i1 := skipBlanks raw_lines (idx_num + 1)
  let docProponent := if i1 < raw_lines.length then pyStrip (raw_lines.getD i1 "") else ""
  let i2 := skipBlanks raw_lines (i1 + 1)
  let subDepartment := if i2 < raw_lines.length then pyStrip (raw_lines.getD i2 "") else ""
  let hdStart := i2 + 1
  let hdrSlice :=
    match introIdx with
    | some k => (raw_lines.take k).drop hdStart
    | none => (raw_lines.take (skipNonBlanks raw_lines hdStart)).drop hdStart
  let headerDetails :=
    String.intercalate " " ((hdrSlice.filter (fun ln => !(pyStrip ln == ""))).map pyStrip)
  ⟨docNumber, docProponent, subDepartment, headerDetails⟩

/-- Introduction block of `steAknCliLegacyFast.py` line 161: the raw
lines from the intro anchor on, joined with blank lines and stripped. -/
def steIntroBlock (raw_lines : List String) (intro_idx : Nat) : String :=
  pyStrip (String.intercalate "\n\n" (raw_lines.drop intro_idx))

/-- Paragraph texts written by the introduction override
(`steAknCliLegacyFast.py` lines 233-235): the non-empty pieces of the
block split on blank lines, stripped. -/
def steIntroParas (block : String) : List String :=
  ((pySplitOnStr "\n\n" block).filter (fun p => p ≠ "")).map pyStrip

/-- Content of the header node: either the skeleton the Structural
Extractor produced (abstracted by its text) or the node rebuilt by the
override. -/
inductive HeaderContent where
  | fromExtractor (raw : String)
  | overridden (docNumber docProponent subDepartment : String) (details : Option String)
  deriving DecidableEq

/-- Header node together with the date marks the resolver placed in
it. -/
structure HeaderNode where
  content : HeaderContent
  marks : List DateMark
  deriving DecidableEq

/-- Aggregated text of the header node. -/
def headerText (h : HeaderNode) : String :=
  match h.content with
  | .fromExtractor raw => raw
  | .overridden a b c d => a ++ b ++ c ++ d.getD ""

/-- Content of the introduction node: extractor output or the override
paragraphs. -/
inductive IntroContent where
  | fromExtractor (raw : String)
  | overridden (paras : List String)
  deriving DecidableEq

/-- Observables of one Council of State task relevant to the override
claims: final header node, final introduction content, recorded warnings
and terminal status. -/
structure SteRunResult where
  header : HeaderNode
  intro : IntroContent
  warnings : List String
  status : String
  deriving DecidableEq

/-- Warning recorded when the document-number anchor is missing
(`steAknCliLegacyFast.py` line 227). -/
def steWarnHeader : String := "Header override skipped"

/-- Warning recorded when the trial-formula anchor is missing
(`steAknCliLegacyFast.py` line 237). -/
def steWarnIntro : String := "Introduction override skipped"

/-- Embedding of the override-and-dates portion of `process_one` in
`steAknCliLegacyFast.py` lines 128-265, projected onto the header node,
the introduction node, the warnings and the status: anchors are searched
on the normalised lines; each override either fully rebuilds its node or
is skipped with a warning; afterwards the public-hearing-date resolution
runs over the header node, marking it on success; the task ends with
status `ok` (collaborator stages are total here, as none of them is
reached differently on the paths this models). -/
def steProcessFragment (resolve : Resolver) (h0 i0 : String) (raw_lines : List String) :
    SteRunResult :=
  let raw_norm := raw_lines.map normalize_gr
  let idx_num : Int :=
    find_index raw_norm (fun ln => pyStartsWith ln "αριθμος" || pyStartsWith ln "αριθμ.")
  let intro_idx : Int :=
    find_index raw_norm (fun ln => pyStartsWith ln "για να δικ")
  let canH := idx_num ≠ -1
  let canI := intro_idx ≠ -1
  let hdr1 : HeaderNode :=
    if canH then
      let f := steHeaderFields raw_lines idx_num.toNat
                 (if canI then some intro_idx.toNat else none)
      ⟨.overridden f.docNumber f.docProponent f.subDepartment
         (if f.headerDetails ≠ "" then some f.headerDetails else none), []⟩
    else ⟨.fromExtractor h0, []⟩
  let w1 : List String := if canH then [] else [steWarnHeader]
  let intro1 : IntroContent :=
    if canI then .overridden (steIntroParas (steIntroBlock raw_lines intro_idx.toNat))
    else .fromExtractor i0
  let w2 : List String := if canI then [] else [steWarnIntro]
  let hdr2 : HeaderNode :=
    match findDatesOfInterest resolve (headerText hdr1) "publicHearingDate" "#COS" with
    | none => hdr1
    | some (mark, _, _) => { hdr1 with marks := hdr1.marks ++ [mark] }
  ⟨hdr2, intro1, w1 ++ w2, "ok"⟩

/-- Terminal observables of one file in the sequential
`createCouncilOfStateJudgmentsAkn.py` loop. -/
structure CosLegacyResult where
  status : String
  warnings : List String
  deriving DecidableEq

/-- Embedding of the anchor handling of
`createCouncilOfStateJudgmentsAkn.py` lines 144-167 with its exception
handling (lines 284-293): the legacy loop locates the anchors with
`next(...)`, which raises `StopIteration` when absent; the generic
handler then records an error — no warning, no artifact.  With both
anchors present the remaining stages (modelled as total) end the file
with `ok`. -/
def cosLegacyAnchorRun (raw : List String) : CosLegacyResult :=
  match raw.findIdx? (fun ln => pyStartsWith ln "Αριθμός") with
  | none => ⟨"error", []⟩
  | some _ =>
    match raw.findIdx? (fun ln => pyStartsWith (pyStrip ln) "Για να δικάσει") with
    | none => ⟨"error", []⟩
    | some _ => ⟨"ok", []⟩

/-! ## Per-file status machines -/

/-- Outcome of the guarded (`try`) body of a per-file task: success,
an XML well-formedness violation (carrying the body text available to the
handler), a user cancellation, or any other exception. -/
inductive TryOutcome where
  | success
  | xmlSyntax (partialBody : Option String)
  | keyboardInterrupt
  | otherError
  deriving DecidableEq

/-- Embedding of the exception ladder of `process_one` in
`areiosPagosAknCliLegacyFast.py` lines 192-219: the returned status and
the content of the side text file written, `none` standing for a
propagated cancellation (re-raised, no status). -/
def apProcessStatus (o : TryOutcome) : Option (String × Option String) :=
  match o with
  | .success => some ("ok", none)
  | .xmlSyntax body => some ("xml_syntax_error", some (body.getD ""))
  | .keyboardInterrupt => none
  | .otherError => some ("unhandled_error", some "")

/-- Embedding of the exception ladder of `process_one` in
`steAknCliLegacyFast.py` lines 265-278: cancellation is re-raised, and
every other exception — the XML syntax violation included — yields the
status string used there, with no side file written. -/
def steProcessStatus (o : TryOutcome) : Option String :=
  match o with
  | .success => some "ok"
  | .keyboardInterrupt => none
  | .xmlSyntax _ => some "error"
  | .otherError => some "error"

/-- Status vocabulary the claim allows for per-file tasks. -/
def claimedStatuses : List String :=
  ["ok", "xml_syntax_error", "unhandled_error", "skipped"]

/-! ## Areios Pagos — legacy loop and parallel CLI pipelines -/

/-- Attempted match of the metadata pattern
`Ar?\s+(?P<decisionNumber>\d+)[_](?P<issueYear>\d+)` at the head of the
character list: the literal `A`, an optional `r`, at least one whitespace
character, a digit run, an underscore, a digit run. -/
def apMetaMatchAt (l : List Char) : Option (String × String) :=
  match l with
  | 'A' :: rest0 =>
    let rest1 := match rest0 with
                 | 'r' :: r => r
                 | _ => rest0
    let ws := rest1.takeWhile isPySpace
    if ws.isEmpty then none
    else
      let rest2 := rest1.drop ws.length
      let d1 := rest2.takeWhile Char.isDigit
      if d1.isEmpty then none
      else
        match rest2.drop d1.length with
        | '_' :: rest3 =>
          let d2 := rest3.takeWhile Char.isDigit
          if d2.isEmpty then none else some (⟨d1⟩, ⟨d2⟩)
        | _ => none
  | _ => none

/-- Leftmost `re.search` of the metadata pattern over the filename:
decision number and issue year, or `none`. -/
def apMetaSearch : List Char → Option (String × String)
  | [] => none
  | c :: rest =>
    match apMetaMatchAt (c :: rest) with
    | some r => some r
    | none => apMetaSearch rest

/-- Constructor arguments of `AknJudgementXML` in the Areios Pagos
scripts. -/
structure ApMeta where
  textType : String
  author : String
  foreas : String
  issueYear : String
  decisionNumber : String
  deriving DecidableEq

/-- Metadata extraction of `areiosPagosAknCliLegacyFast.py` lines 89-99:
defaults of empty strings, overridden when the filename matches the
pattern. -/
def apFastMeta (name : String) : ApMeta :=
  match apMetaSearch name.data with
  | some (num, yr) => ⟨"judgment", "#SCCC", "SCCC", yr, num⟩
  | none => ⟨"judgment", "#SCCC", "SCCC", "", ""⟩

/-- Metadata extraction of `createAreiosPagosJudgmentsAkn.py` lines
111-128: the dictionary holds no `issueYear` or `decisionNumber` entry
unless the filename matches, and the subsequent keyed lookups raise
(`KeyError`) in that case — modelled as `none`. -/
def apLegacyMeta (name : String) : Option ApMeta :=
  match apMetaSearch name.data with
  | some (num, yr) => some ⟨"judgment", "#SCCC", "SCCC", yr, num⟩
  | none => none

/-- Modelled from the spec: collaborator functions shared by the two
Areios Pagos scripts — the two-stage grammar parser, the meta builder
(a function of the constructor metadata alone, per the data model of
section 3), the optional named-entity artifact with its two merge steps,
the paragraph fixup, and the assembly-plus-cascade-plus-serialization
tail, which is textually identical in both scripts.  Intermediate
artifacts are abstracted as strings; the serialized artifact stands for
the bytes written. -/
structure ApWorld where
  legalRefs : String → String
  walkSkeleton : ApMeta → String → String
  createMeta : ApMeta → String
  nerArtifact : Option String
  injectRefs : String → String → String
  injectText : String → String → String
  fixText : String → String
  assembleSerialize : String → String → String

/-- Per-file pipeline of `process_one` in
`areiosPagosAknCliLegacyFast.py` lines 85-190, in its statement order:
legal-references pass, structure walk, meta creation, optional
named-entity merges, fixup, assembly and serialization.  The result is
the artifact written (total, given total collaborators). -/
def apFastRun (w : ApWorld) (name text : String) : Option String :=
  let meta := apFastMeta name
  let answer := w.legalRefs text
  let body0 := w.walkSkeleton meta answer
  let metaElem := w.createMeta meta
  let metaElem1 := match w.nerArtifact with
                   | some g => w.injectRefs g metaElem
                   | none => metaElem
  let body1 := match w.nerArtifact with
               | some g => w.injectText g body0
               | none => body0
  some (w.assembleSerialize metaElem1 (w.fixText body1))

/-- Per-file pipeline of the loop body in
`createAreiosPagosJudgmentsAkn.py` lines 109-232, in its statement
order: metadata (raising on a non-matching filename, whereupon the
generic handler writes an empty side file and no artifact — the `none`
result), meta creation and named-entity reference merge, then the
legal-references pass, structure walk, in-text merge, fixup, assembly and
serialization. -/
def apLegacyRun (w : ApWorld) (name text : String) : Option String :=
  match apLegacyMeta name with
  | none => none
  | some meta =>
    let metaElem := w.createMeta meta
    let metaElem1 := match w.nerArtifact with
                     | some g => w.injectRefs g metaElem
                     | none => metaElem
    let answer := w.legalRefs text
    let body0 := w.walkSkeleton meta answer
    let body1 := match w.nerArtifact with
                 | some g => w.injectText g body0
                 | none => body0
    some (w.assembleSerialize metaElem1 (w.fixText body1))

/-- Artifact mapping of a parallel batch: each submitted task yields the
artifact its own `process_one` computes, independent of every other task
and of completion order. -/
def apBatchArtifact (w : ApWorld) (tasks : List (String × String)) :
    String × String → Option String :=
  fun t => if t ∈ tasks then apFastRun w t.1 t.2 else none

/-! ## Helper lemmas -/

theorem digit_char_isDigit (r : Nat) (h : r ≤ 9) : (Char.ofNat (48 + r)).isDigit = true := by
  interval_cases r <;> decide

theorem digit_toNat_le (c : Char) (h : c.isDigit = true) : c.toNat - 48 ≤ 9 := by
  simp only [Char.isDigit, Bool.and_eq_true, decide_eq_true_eq] at h
  have h2 : c.val.toNat ≤ 57 := h.2
  have h3 : c.toNat = c.val.toNat := rfl
  omega

theorem natDigitsFuel_all_digit (fuel n : Nat) :
    (natDigitsFuel fuel n).all Char.isDigit = true := by
  induction fuel generalizing n with
  | zero => rfl
  | succ fuel ih =>
    simp only [natDigitsFuel]
    split
    · simp [digit_char_isDigit n (by omega)]
    · simp only [List.all_append, ih (n / 10), Bool.true_and]
      simp [digit_char_isDigit (n % 10) (by omega)]

theorem natDigitsFuel_len_le (k : Nat) : ∀ fuel n, n < 10 ^ k → 1 ≤ k →
    (natDigitsFuel fuel n).length ≤ k := by
  induction k with
  | zero => omega
  | succ k ih =>
    intro fuel n hn _
    cases fuel with
    | zero => simp [natDigitsFuel]
    | succ fuel =>
      simp only [natDigitsFuel]
      split
      · simp
      · have hk1 : 1 ≤ k := by
          by_contra hk0
          have : k = 0 := by omega
          subst this
          simp at hn
          omega
        have hdiv : n / 10 < 10 ^ k := by
          have : (10 : Nat) ^ (k + 1) = 10 ^ k * 10 := by ring
          rw [this] at hn
          exact Nat.div_lt_of_lt_mul (by omega)
        have := ih fuel (n / 10) hdiv hk1
        simp only [List.length_append, List.length_cons, List.length_nil]
        omega

theorem natDigits_all_digit (n : Nat) : (natDigits n).all Char.isDigit = true :=
  natDigitsFuel_all_digit (n + 1) n

theorem natDigits_len_le (k n : Nat) (hn : n < 10 ^ k) (hk : 1 ≤ k) :
    (natDigits n).length ≤ k :=
  natDigitsFuel_len_le k (n + 1) n hn hk

theorem padZ_shape (w n : Nat) (h : (natDigits n).length ≤ w) :
    (padZ w n).data.length = w ∧ (padZ w n).data.all Char.isDigit = true := by
  constructor
  · simp only [padZ, List.length_append, List.length_replicate]
    omega
  · simp only [padZ, List.all_append, natDigits_all_digit, Bool.and_true]
    simp [List.all_eq_true]

theorem digitsToNat_aux_lt (l : List Char) : ∀ a : Nat, l.all Char.isDigit = true →
    l.foldl (fun a c => 10 * a + (c.toNat - 48)) a < (a + 1) * 10 ^ l.length := by
  induction l with
  | nil => intro a _; simp
  | cons c l ih =>
    intro a hall
    simp only [List.all_cons, Bool.and_eq_true] at hall
    have hc : c.toNat - 48 ≤ 9 := digit_toNat_le c hall.1
    have := ih (10 * a + (c.toNat - 48)) hall.2
    simp only [List.foldl_cons, List.length_cons]
    calc List.foldl (fun a c => 10 * a + (c.toNat - 48)) (10 * a + (c.toNat - 48)) l
        < (10 * a + (c.toNat - 48) + 1) * 10 ^ l.length := this
      _ ≤ ((a + 1) * 10) * 10 ^ l.length := by
          have : 10 * a + (c.toNat - 48) + 1 ≤ (a + 1) * 10 := by omega
          exact Nat.mul_le_mul_right _ this
      _ = (a + 1) * 10 ^ (l.length + 1) := by ring

theorem digitsToNat_lt (l : List Char) (k : Nat) (hall : l.all Char.isDigit = true)
    (hlen : l.length ≤ k) : digitsToNat l < 10 ^ k := by
  have h := digitsToNat_aux_lt l 0 hall
  simp only [Nat.zero_add, Nat.one_mul] at h
  calc digitsToNat l < 10 ^ l.length := h
    _ ≤ 10 ^ k := Nat.pow_le_pow_right (by omega) hlen

theorem months_code_shape : ∀ p ∈ MONTHS, p.2.data.length = 2 ∧ p.2.data.all Char.isDigit = true := by
  decide

theorem lookupMonth_shape (k c : String) (h : lookupMonth k = some c) :
    c.data.length = 2 ∧ c.data.all Char.isDigit = true := by
  unfold lookupMonth at h
  cases hf : MONTHS.find? (fun p => p.1 == k) with
  | none => rw [hf] at h; simp at h
  | some p =>
    rw [hf] at h
    simp only [Option.map_some', Option.some.injEq] at h
    have hmem := List.mem_of_find?_eq_some hf
    rw [← h]
    exact months_code_shape p hmem

theorem list_len_two (l : List Char) (h : l.length = 2) : ∃ a b, l = [a, b] := by
  match l, h with
  | [a, b], _ => exact ⟨a, b, rfl⟩

theorem list_len_four (l : List Char) (h : l.length = 4) : ∃ a b c d, l = [a, b, c, d] := by
  match l, h with
  | [a, b, c, d], _ => exact ⟨a, b, c, d, rfl⟩

theorem isIsoShape_build (ly lm ld : List Char)
    (hy : ly.length = 4) (hyd : ly.all Char.isDigit = true)
    (hm : lm.length = 2) (hmd : lm.all Char.isDigit = true)
    (hd : ld.length = 2) (hdd : ld.all Char.isDigit = true) :
    isIsoShape ⟨ly ++ '-' :: (lm ++ '-' :: ld)⟩ = true := by
  obtain ⟨y1, y2, y3, y4, rfl⟩ := list_len_four ly hy
  obtain ⟨m1, m2, rfl⟩ := list_len_two lm hm
  obtain ⟨d1, d2, rfl⟩ := list_len_two ld hd
  simp only [List.all_cons, Bool.and_eq_true] at hyd hmd hdd
  simp [isIsoShape, hyd.1, hyd.2.1, hyd.2.2.1, hyd.2.2.2.1, hmd.1, hmd.2.1, hdd.1, hdd.2.1]

/-! ## Claims about text_to_json.py -/

/-- C8: month-name normalisation maps every accented, unaccented and
listed alternate spelling of each of the 12 Greek month names (after
lower-casing and punctuation stripping) to the same two-digit code; for
every day token carrying at most two digits, recognised month token and
year of at most four digits, `to_iso_date` emits a string of the ISO
calendar-date form YYYY-MM-DD; and it returns `none` whenever the month
token is not in the table. -/
theorem C8_month_normalization (day month year code : String)
    (hd1 : day.data.filter Char.isDigit ≠ [])
    (hd2 : (day.data.filter Char.isDigit).length ≤ 2)
    (hm : lookupMonth (normalizeMonthKey month) = some code)
    (hy1 : year.data ≠ []) (hy2 : year.data.all Char.isDigit = true)
    (hy4 : year.data.length ≤ 4) :
    (∀ g ∈ monthSpellGroups, ∀ s ∈ g.1, lookupMonth (normalizeMonthKey s) = some g.2)
    ∧ (∃ out, to_iso_date day month year = some out ∧ isIsoShape out = true)
    ∧ (∀ d2 m2 y2 : String, lookupMonth (normalizeMonthKey m2) = none →
        to_iso_date d2 m2 y2 = none) := by
  refine ⟨by decide, ?_, ?_⟩
  · have hdall : (day.data.filter Char.isDigit).all Char.isDigit = true := by
      simp [List.all_eq_true]
    have hstep1 :
        pyIntOfString ⟨day.data.filter Char.isDigit⟩ =
          some (digitsToNat (day.data.filter Char.isDigit)) := by
      simp only [pyIntOfString, if_pos (And.intro hd1 hdall)]
    have hstep3 : pyIntOfString year = some (digitsToNat year.data) := by
      simp only [pyIntOfString, if_pos (And.intro hy1 hy2)]
    refine ⟨padZ 4 (digitsToNat year.data) ++ "-" ++ code ++ "-" ++
      padZ 2 (digitsToNat (day.data.filter Char.isDigit)), ?_, ?_⟩
    · simp only [to_iso_date, hstep1, hm, hstep3]
    · have hylt : digitsToNat year.data < 10 ^ 4 := digitsToNat_lt _ 4 hy2 hy4
      have hdlt : digitsToNat (day.data.filter Char.isDigit) < 10 ^ 2 :=
        digitsToNat_lt _ 2 hdall hd2
      have hy' := padZ_shape 4 (digitsToNat year.data)
        (natDigits_len_le 4 _ hylt (by omega))
      have hd' := padZ_shape 2 (digitsToNat (day.data.filter Char.isDigit))
        (natDigits_len_le 2 _ hdlt (by omega))
      have hc' := lookupMonth_shape _ _ hm
      have hdata :
          (padZ 4 (digitsToNat year.data) ++ "-" ++ code ++ "-" ++
            padZ 2 (digitsToNat (day.data.filter Char.isDigit))).data =
          (padZ 4 (digitsToNat year.data)).data ++ '-' ::
            (code.data ++ '-' ::
              (padZ 2 (digitsToNat (day.data.filter Char.isDigit))).data) := by
        simp [String.data_append]
      have hshape := isIsoShape_build (padZ 4 (digitsToNat year.data)).data code.data
        (padZ 2 (digitsToNat (day.data.filter Char.isDigit))).data
        hy'.1 hy'.2 hc'.1 hc'.2 hd'.1 hd'.2
      rw [← hdata] at hshape
      exact hshape
  · intro d2 m2 y2 hm2
    simp only [to_iso_date]
    cases hpi : pyIntOfString ⟨d2.data.filter Char.isDigit⟩ with
    | none => rfl
    | some d => rw [hm2]

/-- Witness for C8 at a concrete day, month and year token. -/
theorem C8_month_normalization_witness :
    ∃ out, to_iso_date "20η" "Μαΐου" "2024" = some out ∧ isIsoShape out = true :=
  (C8_month_normalization "20η" "Μαΐου" "2024" "05"
    (by decide) (by decide) (by decide) (by decide) (by decide) (by decide)).2.1

theorem verbMatchAt_shape (verb t m : List Char) (h : verbMatchAt verb t = some m) :
    verb.isPrefixOf m = true ∧ lastIsTerm m = true := by
  unfold verbMatchAt at h
  cases hpre : verb.isPrefixOf t with
  | false => simp [hpre] at h
  | true =>
    simp only [hpre, if_true] at h
    split at h
    · rename_i term tail hterm
      split at h
      · rename_i hdot
        injection h with h
        subst h
        refine ⟨?_, ?_⟩
        · rw [List.isPrefixOf_iff_prefix, List.append_assoc]
          exact List.prefix_append verb _
        · unfold lastIsTerm
          rw [List.getLast?_concat]
          exact hdot
      · exact absurd h (by simp)
    · exact absurd h (by simp)

theorem reSearchVerb_shape (verb : List Char) : ∀ t m, reSearchVerb verb t = some m →
    verb.isPrefixOf m = true ∧ lastIsTerm m = true := by
  intro t
  induction t with
  | nil => intro m h; exact verbMatchAt_shape verb [] m h
  | cons c rest ih =>
    intro m h
    simp only [reSearchVerb] at h
    cases hma : verbMatchAt verb (c :: rest) with
    | some m2 =>
      rw [hma] at h
      injection h with h
      subst h
      exact verbMatchAt_shape verb (c :: rest) m2 hma
    | none =>
      rw [hma] at h
      exact ih m h

theorem firstVerbHit_nil : firstVerbHit OUTCOME_VERBS [] = none := by decide

/-- C6 counterexample: on a decision span whose first verdict sentence
begins with `Δέχεται` while a later sentence begins with `Απορρίπτει`,
`extract_outcome` returns the later sentence — the verb-list order, not
the document order, decides — so the outcome is not the first sentence of
the span beginning with a verdict verb. -/
theorem C6_counterexample :
    extract_outcome ("Δέχεται την αίτηση. Απορρίπτει τα λοιπά.\n".data)
        = some ("Απορρίπτει τα λοιπά.".data)
    ∧ earliestVerbMatch OUTCOME_VERBS ("Δέχεται την αίτηση. Απορρίπτει τα λοιπά.\n".data)
        = some ("Δέχεται την αίτηση.".data)
    ∧ extract_outcome ("Δέχεται την αίτηση. Απορρίπτει τα λοιπά.\n".data)
        ≠ (earliestVerbMatch OUTCOME_VERBS
            ("Δέχεται την αίτηση. Απορρίπτει τα λοιπά.\n".data)).map pyStripList := by
  refine ⟨by decide, by decide, by decide⟩

/-- C6 as amended: for an empty decision span the outcome is `none`; when
some verb of the fixed list matches, the outcome is the stripped leftmost
match of the first verb in the list order that matches anywhere in the
span — a span beginning with a verb, then period-free text, then a period
or newline; when no verb matches, the outcome is the first non-blank line
of the span (and `none` when there is none). -/
theorem C6_amended_verb_priority (t : List Char) :
    (t = [] → extract_outcome t = none)
    ∧ (∀ m, firstVerbHit OUTCOME_VERBS t = some m →
        extract_outcome t = some (pyStripList m)
        ∧ ∃ v ∈ OUTCOME_VERBS, reSearchVerb v t = some m
            ∧ v.isPrefixOf m = true ∧ lastIsTerm m = true)
    ∧ (firstVerbHit OUTCOME_VERBS t = none → extract_outcome t = firstNonBlankLine t) := by
  refine ⟨?_, ?_, ?_⟩
  · intro h
    subst h
    rfl
  · intro m hm
    have ht : t ≠ [] := by
      intro h
      subst h
      rw [firstVerbHit_nil] at hm
      exact absurd hm (by simp)
    constructor
    · simp only [extract_outcome, if_neg ht, hm]
    · obtain ⟨v, hv, hsearch⟩ := List.exists_of_findSome?_eq_some hm
      have := reSearchVerb_shape v t m hsearch
      exact ⟨v, hv, hsearch, this.1, this.2⟩
  · intro h
    by_cases ht : t = []
    · subst ht
      rfl
    · simp only [extract_outcome, if_neg ht, h]

/-- Witness for the amended C6 at a concrete decision span. -/
theorem C6_amended_witness :
    extract_outcome ("Αναιρεί την απόφαση.\n".data)
        = some (pyStripList ("Αναιρεί την απόφαση.".data))
    ∧ ∃ v ∈ OUTCOME_VERBS, reSearchVerb v ("Αναιρεί την απόφαση.\n".data)
        = some ("Αναιρεί την απόφαση.".data)
        ∧ v.isPrefixOf ("Αναιρεί την απόφαση.".data) = true
        ∧ lastIsTerm ("Αναιρεί την απόφαση.".data) = true :=
  (C6_amended_verb_priority ("Αναιρεί την απόφαση.\n".data)).2.1
    ("Αναιρεί την απόφαση.".data) (by decide)
theorem find_first_none (text : List Char) (ps : List RePattern)
    (h : ∀ p ∈ ps, p text = none) : find_first text ps = -1 := by
  induction ps with
  | nil => rfl
  | cons p ps ih =>
    have hp := h p (List.mem_cons_self p ps)
    simp only [find_first, hp]
    exact ih (fun q hq => h q (List.mem_cons_of_mem p hq))

theorem segment_text_eq (mot dec conc : List RePattern) (text : List Char) (am ad ac : Nat)
    (ham : (if find_first text mot = -1 then (text.length : Int) else find_first text mot) = (am : Int))
    (had : (if find_first text dec = -1 then (text.length : Int) else find_first text dec) = (ad : Int))
    (hac : (if find_first text conc = -1 then (text.length : Int) else find_first text conc) = (ac : Int)) :
    segment_text mot dec conc text =
      ⟨pyStripList (pySlice text 0 (min am (min ad ac))),
       if am < text.length then
         pyStripList (pySlice text am (min ad (min ac text.length))) else [],
       if ad < text.length then pyStripList (pySlice text ad (min ac text.length)) else [],
       if ac < text.length then pyStripList (pySlice text ac text.length) else []⟩ := by
  have e1 : (min (am : Int) (min (ad : Int) (ac : Int))).toNat = min am (min ad ac) := by omega
  have e2 : (min (ad : Int) (min (ac : Int) (text.length : Int))).toNat
      = min ad (min ac text.length) := by omega
  have e3 : (min (ac : Int) (text.length : Int)).toNat = min ac text.length := by omega
  simp only [segment_text, ham, had, hac, e1, e2, e3, Nat.cast_lt, Int.toNat_ofNat]

theorem pySlice_append_adj (t : List Char) (a b c : Nat) (hab : a ≤ b) (hbc : b ≤ c) :
    pySlice t a b ++ pySlice t b c = pySlice t a c := by
  have h1 : pySlice t a b = (t.drop a).take (b - a) := by simp [pySlice, List.drop_take]
  have h2 : pySlice t b c = (t.drop b).take (c - b) := by simp [pySlice, List.drop_take]
  have h3 : pySlice t a c = (t.drop a).take (c - a) := by simp [pySlice, List.drop_take]
  rw [h1, h2, h3]
  rw [show t.drop b = (t.drop a).drop (b - a) by rw [List.drop_drop]; congr 1; omega]
  rw [show c - a = (b - a) + (c - b) by omega, List.take_add]

theorem pySlice_zero_length (t : List Char) : pySlice t 0 t.length = t := by
  simp [pySlice]

/-- C7: in heuristic segmentation any marker not found defaults its
offset to end-of-text, so the corresponding section degrades to an empty
string; and on a text containing none of the three marker classes, the
introduction is the whole text (stripped) while motivation, decision and
conclusions are all empty. -/
theorem C7_segmentation_missing_markers (mot dec conc : List RePattern) (text : List Char) :
    ((∀ p ∈ mot, p text = none) → (segment_text mot dec conc text).motivation = [])
    ∧ ((∀ p ∈ dec, p text = none) → (segment_text mot dec conc text).decision_text = [])
    ∧ ((∀ p ∈ conc, p text = none) → (segment_text mot dec conc text).conclusions = [])
    ∧ ((∀ p ∈ mot, p text = none) → (∀ p ∈ dec, p text = none) →
        (∀ p ∈ conc, p text = none) →
        segment_text mot dec conc text = ⟨pyStripList text, [], [], []⟩) := by
  refine ⟨?_, ?_, ?_, ?_⟩
  · intro h
    simp [segment_text, find_first_none text mot h]
  · intro h
    simp [segment_text, find_first_none text dec h]
  · intro h
    simp [segment_text, find_first_none text conc h]
  · intro h1 h2 h3
    simp [segment_text, find_first_none text mot h1, find_first_none text dec h2,
      find_first_none text conc h3, pySlice]

/-- Witness for C7 on a concrete marker-free text. -/
theorem C7_segmentation_missing_markers_witness :
    segment_text [] [] [] ("  κείμενο χωρίς δείκτες ".data) =
      ⟨pyStripList ("  κείμενο χωρίς δείκτες ".data), [], [], []⟩ :=
  (C7_segmentation_missing_markers [] [] [] _).2.2.2
    (by intro p hp; cases hp) (by intro p hp; cases hp) (by intro p hp; cases hp)

theorem pySlice_self (t : List Char) (a : Nat) : pySlice t a a = [] := by
  apply List.drop_eq_nil_of_le
  simp [List.length_take]

/-- C10: whenever the markers that are found occur in the order
motivation, decision, conclusions, the four sections of `segment_text`
are the stripped forms of four contiguous, pairwise disjoint slices laid
out in document order: there are cut points `0 ≤ x1 ≤ x2 ≤ x3 ≤ n` with
the introduction span starting at offset 0, the conclusions span ending
at the end of the text (and starting exactly at the conclusions marker
when it is found), and the four unstripped spans concatenating back to
the whole text.  The hypotheses fix the effective offsets (`am`, `ad`,
`ac`) as the code computes them — a missing marker defaults to
end-of-text — and require document order only between markers that are
found, exactly as the claim does. -/
theorem C10_segmentation_partition (mot dec conc : List RePattern) (text : List Char)
    (am ad ac : Nat)
    (ham : (if find_first text mot = -1 then (text.length : Int) else find_first text mot) = (am : Int))
    (had : (if find_first text dec = -1 then (text.length : Int) else find_first text dec) = (ad : Int))
    (hac : (if find_first text conc = -1 then (text.length : Int) else find_first text conc) = (ac : Int))
    (hamle : am ≤ text.length) (hadle : ad ≤ text.length) (hacle : ac ≤ text.length)
    (hmd : find_first text mot ≠ -1 → find_first text dec ≠ -1 → am ≤ ad)
    (hmc : find_first text mot ≠ -1 → find_first text conc ≠ -1 → am ≤ ac)
    (hdc : find_first text dec ≠ -1 → find_first text conc ≠ -1 → ad ≤ ac) :
    ∃ x1 x2 x3 : Nat, x1 ≤ x2 ∧ x2 ≤ x3 ∧ x3 ≤ text.length ∧
      (segment_text mot dec conc text).introduction = pyStripList (pySlice text 0 x1) ∧
      (segment_text mot dec conc text).motivation = pyStripList (pySlice text x1 x2) ∧
      (segment_text mot dec conc text).decision_text = pyStripList (pySlice text x2 x3) ∧
      (segment_text mot dec conc text).conclusions = pyStripList (pySlice text x3 text.length) ∧
      pySlice text 0 x1 ++ (pySlice text x1 x2 ++ (pySlice text x2 x3 ++
        pySlice text x3 text.length)) = text ∧
      (find_first text conc ≠ -1 → (x3 : Int) = find_first text conc) := by
  have hfm : find_first text mot = -1 → am = text.length := by
    intro h; rw [if_pos h] at ham; exact_mod_cast ham.symm
  have hfd : find_first text dec = -1 → ad = text.length := by
    intro h; rw [if_pos h] at had; exact_mod_cast had.symm
  have hfc : find_first text conc = -1 → ac = text.length := by
    intro h; rw [if_pos h] at hac; exact_mod_cast hac.symm
  have hord1 : am < text.length → am ≤ ad := by
    intro h
    by_cases h1 : find_first text mot = -1
    · have := hfm h1; omega
    · by_cases h2 : find_first text dec = -1
      · have := hfd h2; omega
      · exact hmd h1 h2
  have hord2 : am < text.length → am ≤ ac := by
    intro h
    by_cases h1 : find_first text mot = -1
    · have := hfm h1; omega
    · by_cases h2 : find_first text conc = -1
      · have := hfc h2; omega
      · exact hmc h1 h2
  have hord3 : ad < text.length → ad ≤ ac := by
    intro h
    by_cases h1 : find_first text dec = -1
    · have := hfd h1; omega
    · by_cases h2 : find_first text conc = -1
      · have := hfc h2; omega
      · exact hdc h1 h2
  have hseg := segment_text_eq mot dec conc text am ad ac ham had hac
  -- the three cut points
  refine ⟨min am (min ad ac),
    if am < text.length then min ad (min ac text.length) else min am (min ad ac),
    if ad < text.length then min ac text.length
      else (if am < text.length then min ad (min ac text.length) else min am (min ad ac)),
    ?_, ?_, ?_, ?_, ?_, ?_, ?_, ?_, ?_⟩
  · by_cases h1 : am < text.length
    · have := hord1 h1; have := hord2 h1; rw [if_pos h1]; omega
    · rw [if_neg h1]
  · by_cases h2 : ad < text.length
    · have := hord3 h2
      by_cases h1 : am < text.length
      · rw [if_pos h2, if_pos h1]; omega
      · rw [if_pos h2, if_neg h1]; omega
    · rw [if_neg h2]
  · by_cases h2 : ad < text.length
    · rw [if_pos h2]; omega
    · rw [if_neg h2]
      by_cases h1 : am < text.length
      · rw [if_pos h1]; omega
      · rw [if_neg h1]; omega
  · simp only [hseg]
  · simp only [hseg]
    by_cases h1 : am < text.length
    · have hx1 : min am (min ad ac) = am := by
        have := hord1 h1; have := hord2 h1; omega
      rw [if_pos h1, if_pos h1, hx1]
    · rw [if_neg h1, if_neg h1, pySlice_self]
      rfl
  · simp only [hseg]
    by_cases h2 : ad < text.length
    · have had2 : ad ≤ ac := hord3 h2
      rw [if_pos h2, if_pos h2]
      congr 2
      by_cases h1 : am < text.length
      · rw [if_pos h1]
        have := hord1 h1; omega
      · rw [if_neg h1]
        omega
    · rw [if_neg h2, if_neg h2, pySlice_self]
      rfl
  · simp only [hseg]
    by_cases h3 : ac < text.length
    · rw [if_pos h3]
      congr 2
      by_cases h2 : ad < text.length
      · rw [if_pos h2]
        have := hord3 h2; omega
      · rw [if_neg h2]
        by_cases h1 : am < text.length
        · rw [if_pos h1]
          have := hord1 h1; omega
        · rw [if_neg h1]
          omega
    · rw [if_neg h3]
      have hx3 : (if ad < text.length then min ac text.length
          else (if am < text.length then min ad (min ac text.length)
            else min am (min ad ac))) = text.length := by
        have hac' : ac = text.length := by omega
        by_cases h2 : ad < text.length
        · rw [if_pos h2]; omega
        · rw [if_neg h2]
          by_cases h1 : am < text.length
          · rw [if_pos h1]; omega
          · rw [if_neg h1]; omega
      rw [hx3, pySlice_self]
      rfl
  · have hx1 : min am (min ad ac) ≤
        (if am < text.length then min ad (min ac text.length) else min am (min ad ac)) := by
      by_cases h1 : am < text.length
      · have := hord1 h1; have := hord2 h1; rw [if_pos h1]; omega
      · rw [if_neg h1]
    have hx2 : (if am < text.length then min ad (min ac text.length) else min am (min ad ac)) ≤
        (if ad < text.length then min ac text.length
          else (if am < text.length then min ad (min ac text.length) else min am (min ad ac))) := by
      by_cases h2 : ad < text.length
      · have := hord3 h2
        by_cases h1 : am < text.length
        · rw [if_pos h2, if_pos h1]; omega
        · rw [if_pos h2, if_neg h1]; omega
      · rw [if_neg h2]
    have hx3 : (if ad < text.length then min ac text.length
          else (if am < text.length then min ad (min ac text.length) else min am (min ad ac)))
        ≤ text.length := by
      by_cases h2 : ad < text.length
      · rw [if_pos h2]; omega
      · rw [if_neg h2]
        by_cases h1 : am < text.length
        · rw [if_pos h1]; omega
        · rw [if_neg h1]; omega
    rw [pySlice_append_adj text _ _ _ hx2 hx3,
      pySlice_append_adj text _ _ _ hx1
        (le_trans hx2 hx3),
      pySlice_append_adj text 0 _ _ (by omega) (le_trans hx1 (le_trans hx2 hx3)),
      pySlice_zero_length]
  · intro hfound
    have hx3ac : (if ad < text.length then min ac text.length
        else (if am < text.length then min ad (min ac text.length)
          else min am (min ad ac))) = ac := by
      by_cases h2 : ad < text.length
      · rw [if_pos h2]
        have := hord3 h2; omega
      · rw [if_neg h2]
        by_cases h1 : am < text.length
        · rw [if_pos h1]
          have := hord1 h1; omega
        · rw [if_neg h1]; omega
    rw [hx3ac]
    rw [if_neg hfound] at hac
    exact hac.symm

/-- Witness for C10 with three concrete markers found in document
order. -/
theorem C10_segmentation_partition_witness :
    ∃ x1 x2 x3 : Nat, x1 ≤ x2 ∧ x2 ≤ x3 ∧ x3 ≤ ("abcdefgh".data).length ∧
      (segment_text [fun _ => some 2] [fun _ => some 4] [fun _ => some 6]
        ("abcdefgh".data)).introduction = pyStripList (pySlice ("abcdefgh".data) 0 x1) ∧
      (segment_text [fun _ => some 2] [fun _ => some 4] [fun _ => some 6]
        ("abcdefgh".data)).motivation = pyStripList (pySlice ("abcdefgh".data) x1 x2) ∧
      (segment_text [fun _ => some 2] [fun _ => some 4] [fun _ => some 6]
        ("abcdefgh".data)).decision_text = pyStripList (pySlice ("abcdefgh".data) x2 x3) ∧
      (segment_text [fun _ => some 2] [fun _ => some 4] [fun _ => some 6]
        ("abcdefgh".data)).conclusions =
          pyStripList (pySlice ("abcdefgh".data) x3 ("abcdefgh".data).length) ∧
      pySlice ("abcdefgh".data) 0 x1 ++ (pySlice ("abcdefgh".data) x1 x2 ++
        (pySlice ("abcdefgh".data) x2 x3 ++
          pySlice ("abcdefgh".data) x3 ("abcdefgh".data).length)) = "abcdefgh".data ∧
      (find_first ("abcdefgh".data) [fun _ => some 6] ≠ -1 →
        (x3 : Int) = find_first ("abcdefgh".data) [fun _ => some 6]) :=
  C10_segmentation_partition [fun _ => some 2] [fun _ => some 4] [fun _ => some 6]
    ("abcdefgh".data) 2 4 6 (by decide) (by decide) (by decide) (by decide) (by decide)
    (by decide) (by decide) (by decide) (by decide)

/-! ## Claims about the date-resolution helper -/

/-- C2 counterexample: a Council of State `add_date` call whose
references node is absent (`None`) and whose resolver succeeds performs
the workflow insert and both identification stamps but not the reference
append — three of the four effects, a proper subset, so the
all-four-or-none claim fails at this call. -/
theorem C2_counterexample :
    ¬ (((ste_add_date (fun s => if s = "κείμενο" then some "2024-02-20" else none)
          "decisionPublicationDate" "#COS"
          ⟨"κείμενο", [], [], none, ⟨"", ""⟩, ⟨"", ""⟩⟩).wf ≠ ([] : List Step)
        ∧ (ste_add_date (fun s => if s = "κείμενο" then some "2024-02-20" else none)
            "decisionPublicationDate" "#COS"
            ⟨"κείμενο", [], [], none, ⟨"", ""⟩, ⟨"", ""⟩⟩).refs ≠ (none : Option (List TLCRef))
        ∧ (ste_add_date (fun s => if s = "κείμενο" then some "2024-02-20" else none)
            "decisionPublicationDate" "#COS"
            ⟨"κείμενο", [], [], none, ⟨"", ""⟩, ⟨"", ""⟩⟩).frbrW ≠ (⟨"", ""⟩ : FRBRDate)
        ∧ (ste_add_date (fun s => if s = "κείμενο" then some "2024-02-20" else none)
            "decisionPublicationDate" "#COS"
            ⟨"κείμενο", [], [], none, ⟨"", ""⟩, ⟨"", ""⟩⟩).frbrE ≠ (⟨"", ""⟩ : FRBRDate))
      ∨ ste_add_date (fun s => if s = "κείμενο" then some "2024-02-20" else none)
          "decisionPublicationDate" "#COS"
          ⟨"κείμενο", [], [], none, ⟨"", ""⟩, ⟨"", ""⟩⟩ =
        ⟨"κείμενο", [], [], none, ⟨"", ""⟩, ⟨"", ""⟩⟩) := by
  decide

/-- C2 as amended: the Areios Pagos `_add_date` performs all four side
effects atomically on success and none on failure; the Council of State
`add_date` does the same whenever the references node is present, but
with the references node absent a successful call performs exactly the
other three effects (workflow insert and the two identification stamps)
and skips the reference append. -/
theorem C2_amended_atomicity (resolve : Resolver) (kind author : String) :
    (∀ s : DState, resolve s.nodeText = none → ap_add_date resolve kind author s = s)
    ∧ (∀ s : DState, ∀ iso, resolve s.nodeText = some iso →
        ap_add_date resolve kind author s =
          ⟨s.nodeText, s.nodeMarks ++ [⟨kind, iso, 0⟩], ⟨kind, iso⟩ :: s.wf,
           s.refs ++ [⟨kind, author⟩], ⟨iso, kind⟩, ⟨iso, kind⟩⟩)
    ∧ (∀ s : SteDState, resolve s.nodeText = none → ste_add_date resolve kind author s = s)
    ∧ (∀ s : SteDState, ∀ iso rs, resolve s.nodeText = some iso → s.refs = some rs →
        ste_add_date resolve kind author s =
          ⟨s.nodeText, s.nodeMarks ++ [⟨kind, iso, 0⟩], ⟨kind, iso⟩ :: s.wf,
           some (rs ++ [⟨kind, author⟩]), ⟨iso, kind⟩, ⟨iso, kind⟩⟩)
    ∧ (∀ s : SteDState, ∀ iso, resolve s.nodeText = some iso → s.refs = none →
        ste_add_date resolve kind author s =
          ⟨s.nodeText, s.nodeMarks ++ [⟨kind, iso, 0⟩], ⟨kind, iso⟩ :: s.wf,
           none, ⟨iso, kind⟩, ⟨iso, kind⟩⟩) := by
  refine ⟨?_, ?_, ?_, ?_, ?_⟩
  · intro s h
    simp [ap_add_date, findDatesOfInterest, h]
  · intro s iso h
    simp [ap_add_date, findDatesOfInterest, h]
  · intro s h
    simp [ste_add_date, findDatesOfInterest, h]
  · intro s iso rs h hr
    simp [ste_add_date, findDatesOfInterest, h, hr]
  · intro s iso h hr
    simp [ste_add_date, findDatesOfInterest, h, hr]

/-- Witness for the amended C2: a successful Areios Pagos call at a
concrete state, performing all four effects. -/
theorem C2_amended_witness :
    ap_add_date (fun s => if s = "κείμενο" then some "2024-02-20" else none)
        "decisionPublicationDate" "#SCCC"
        ⟨"κείμενο", [], [], [], ⟨"", ""⟩, ⟨"", ""⟩⟩ =
      ⟨"κείμενο", [⟨"decisionPublicationDate", "2024-02-20", 0⟩],
       [⟨"decisionPublicationDate", "2024-02-20"⟩],
       [⟨"decisionPublicationDate", "#SCCC"⟩],
       ⟨"2024-02-20", "decisionPublicationDate"⟩,
       ⟨"2024-02-20", "decisionPublicationDate"⟩⟩ :=
  (C2_amended_atomicity (fun s => if s = "κείμενο" then some "2024-02-20" else none)
    "decisionPublicationDate" "#SCCC").2.1
    ⟨"κείμενο", [], [], [], ⟨"", ""⟩, ⟨"", ""⟩⟩ "2024-02-20" (by decide)

/-- C1, evaluation at the failing input: a conclusions block of two
paragraphs where the whole-block rule succeeds (date 2024-01-01), yet
the per-paragraph rule still runs — `not concl.find(...)` is `True`
even though a date element is present, because the resolver-produced
date element is childless and lxml element truth value is the presence
of children — its inner break never fires for the same reason, the
second paragraph restamps the identification dates with 2024-02-02, and
three workflow steps pile up.  Under the claim, after the whole-block
success the later rules would never be evaluated: one step, stamp
2024-01-01. -/
theorem C1_cascade_guard_evaluation :
    (fun s => if s = "Δημοσιεύθηκε στις 2 Φεβρουαρίου 2024." then some "2024-02-02"
        else some "2024-01-01")
      (conclText ⟨[⟨"Κρίθηκε και αποφασίσθηκε την 1 Ιανουαρίου 2024.", []⟩,
        ⟨"Δημοσιεύθηκε στις 2 Φεβρουαρίου 2024.", []⟩], []⟩) = some "2024-01-01"
    ∧ (apPubCascade
        (fun s => if s = "Δημοσιεύθηκε στις 2 Φεβρουαρίου 2024." then some "2024-02-02"
            else some "2024-01-01") "#SCCC"
        ⟨⟨[⟨"Κρίθηκε και αποφασίσθηκε την 1 Ιανουαρίου 2024.", []⟩,
          ⟨"Δημοσιεύθηκε στις 2 Φεβρουαρίου 2024.", []⟩], []⟩,
         [], [], ⟨"", ""⟩, ⟨"", ""⟩⟩).frbrW =
      ⟨"2024-02-02", "decisionPublicationDate"⟩
    ∧ (apPubCascade
        (fun s => if s = "Δημοσιεύθηκε στις 2 Φεβρουαρίου 2024." then some "2024-02-02"
            else some "2024-01-01") "#SCCC"
        ⟨⟨[⟨"Κρίθηκε και αποφασίσθηκε την 1 Ιανουαρίου 2024.", []⟩,
          ⟨"Δημοσιεύθηκε στις 2 Φεβρουαρίου 2024.", []⟩], []⟩,
         [], [], ⟨"", ""⟩, ⟨"", ""⟩⟩).wf.length = 3
    ∧ (apPubCascade
        (fun s => if s = "Δημοσιεύθηκε στις 2 Φεβρουαρίου 2024." then some "2024-02-02"
            else some "2024-01-01") "#SCCC"
        ⟨⟨[⟨"Κρίθηκε και αποφασίσθηκε την 1 Ιανουαρίου 2024.", []⟩,
          ⟨"Δημοσιεύθηκε στις 2 Φεβρουαρίου 2024.", []⟩], []⟩,
         [], [], ⟨"", ""⟩, ⟨"", ""⟩⟩).refs.length = 3 := by
  refine ⟨by decide, by decide, by decide, by decide⟩

/-- C3 counterexample: on an input without the document-number anchor
line, the legacy sequential Council of State script ends the file in an
error (its anchor search raises and the generic handler takes over — no
warning, no ok), and in the parallel script the header node after the
full pipeline can differ from the extractor output: the
public-hearing-date resolution marks the header when its pattern matches
there. -/
theorem C3_counterexample :
    cosLegacyAnchorRun ["Κείμενο χωρίς αγκύρωση αριθμού"] = ⟨"error", []⟩
    ∧ (steProcessFragment
        (fun s => if s = "Συνεδρίασε δημόσια στις 5 Μαΐου 2024" then some "2024-05-05"
            else none)
        "Συνεδρίασε δημόσια στις 5 Μαΐου 2024" "εισαγωγή"
        ["Κείμενο χωρίς αγκύρωση αριθμού"]).header ≠
      ⟨.fromExtractor "Συνεδρίασε δημόσια στις 5 Μαΐου 2024", []⟩ := by
  refine ⟨by decide, by decide⟩

/-- C3 as amended: in the parallel Council of State script, an input
whose normalised lines carry no document-number anchor skips the header
override entirely — the header content stays exactly the extractor
skeleton — a warning is recorded, the condition is no error, and the task
ends with status ok; the header node is bit-identical to the extractor
output whenever the public-hearing-date resolution does not fire on it
(otherwise only its date marking is added). -/
theorem C3_amended_header_skip (resolve : Resolver) (h0 i0 : String) (raw_lines : List String)
    (h : find_index (raw_lines.map normalize_gr)
        (fun ln => pyStartsWith ln "αριθμος" || pyStartsWith ln "αριθμ.") = -1) :
    (steProcessFragment resolve h0 i0 raw_lines).header.content = .fromExtractor h0
    ∧ steWarnHeader ∈ (steProcessFragment resolve h0 i0 raw_lines).warnings
    ∧ (steProcessFragment resolve h0 i0 raw_lines).status = "ok"
    ∧ (resolve h0 = none →
        (steProcessFragment resolve h0 i0 raw_lines).header = ⟨.fromExtractor h0, []⟩) := by
  simp only [steProcessFragment, h]
  have hht : headerText ⟨.fromExtractor h0, []⟩ = h0 := rfl
  refine ⟨?_, ?_, ?_, ?_⟩
  · cases hres : findDatesOfInterest resolve
        (headerText ⟨.fromExtractor h0, []⟩) "publicHearingDate" "#COS" with
    | none => simp [hres]
    | some r =>
      obtain ⟨mark, step, tlc⟩ := r
      simp [hres]
  · cases hres : findDatesOfInterest resolve
        (headerText ⟨.fromExtractor h0, []⟩) "publicHearingDate" "#COS" with
    | none => simp [hres]
    | some r =>
      obtain ⟨mark, step, tlc⟩ := r
      simp [hres]
  · cases hres : findDatesOfInterest resolve
        (headerText ⟨.fromExtractor h0, []⟩) "publicHearingDate" "#COS" with
    | none => simp [hres]
    | some r =>
      obtain ⟨mark, step, tlc⟩ := r
      simp [hres]
  · intro hnone
    have hres : findDatesOfInterest resolve
        (headerText ⟨.fromExtractor h0, []⟩) "publicHearingDate" "#COS" = none := by
      simp [findDatesOfInterest, hht, hnone]
    simp [hres]

/-- Witness for the amended C3 on a concrete anchor-free input. -/
theorem C3_amended_header_skip_witness :
    (steProcessFragment (fun _ => none) "κεφαλίδα" "εισαγωγή"
        ["Κείμενο χωρίς αγκύρωση αριθμού"]).header.content = .fromExtractor "κεφαλίδα"
    ∧ steWarnHeader ∈ (steProcessFragment (fun _ => none) "κεφαλίδα" "εισαγωγή"
        ["Κείμενο χωρίς αγκύρωση αριθμού"]).warnings
    ∧ (steProcessFragment (fun _ => none) "κεφαλίδα" "εισαγωγή"
        ["Κείμενο χωρίς αγκύρωση αριθμού"]).status = "ok"
    ∧ ((fun _ => (none : Option String)) "κεφαλίδα" = none →
        (steProcessFragment (fun _ => none) "κεφαλίδα" "εισαγωγή"
          ["Κείμενο χωρίς αγκύρωση αριθμού"]).header = ⟨.fromExtractor "κεφαλίδα", []⟩) :=
  C3_amended_header_skip (fun _ => none) "κεφαλίδα" "εισαγωγή"
    ["Κείμενο χωρίς αγκύρωση αριθμού"] (by decide)

/-! ## Claims about the per-file status machines -/

/-- C4 counterexample: in the parallel Council of State script, a task
hit by a generic exception — or even by an XML well-formedness violation
— terminates with the status string used there, which is outside the
claimed status vocabulary, and no side file distinction exists. -/
theorem C4_counterexample :
    steProcessStatus .otherError = some "error"
    ∧ steProcessStatus (.xmlSyntax (some "μερικό κείμενο")) = some "error"
    ∧ "error" ∉ claimedStatuses := by
  refine ⟨rfl, rfl, by decide⟩

/-- C4 as amended: in the parallel Areios Pagos script every
non-cancelled task terminates in one of ok, xml_syntax_error or
unhandled_error; the status is xml_syntax_error exactly when the guarded
body raised an XML well-formedness violation, in which case the side file
holds whatever partial body text exists, and any other exception yields
unhandled_error with an empty side file; cancellation re-raises with no
status.  In the parallel Council of State script the statuses are only ok
and error: every non-cancelled exception — the XML syntax violation
included — collapses to error, with no side file. -/
theorem C4_amended_status_machine (o : TryOutcome) :
    (∀ st side, apProcessStatus o = some (st, side) →
        st ∈ ["ok", "xml_syntax_error", "unhandled_error"]
        ∧ (st = "xml_syntax_error" ↔ ∃ b, o = TryOutcome.xmlSyntax b)
        ∧ (∀ b, o = TryOutcome.xmlSyntax b → side = some (b.getD ""))
        ∧ (o = TryOutcome.otherError → side = some ""))
    ∧ (apProcessStatus o = none ↔ o = TryOutcome.keyboardInterrupt)
    ∧ (∀ st, steProcessStatus o = some st → st ∈ ["ok", "error"])
    ∧ (steProcessStatus o = none ↔ o = TryOutcome.keyboardInterrupt) := by
  cases o with
  | success =>
    refine ⟨?_, by simp [apProcessStatus], ?_, by simp [steProcessStatus]⟩
    · intro st side hs
      injection hs with hs
      injection hs with h1 h2
      subst h1
      subst h2
      refine ⟨by simp, by simp, by simp, by simp⟩
    · intro st hs
      injection hs with hs
      subst hs
      simp
  | xmlSyntax b =>
    refine ⟨?_, by simp [apProcessStatus], ?_, by simp [steProcessStatus]⟩
    · intro st side hs
      injection hs with hs
      injection hs with h1 h2
      subst h1
      subst h2
      refine ⟨by simp, by simp, ?_, by simp⟩
      intro b2 hb
      injection hb with hb
      subst hb
      rfl
    · intro st hs
      injection hs with hs
      subst hs
      simp
  | keyboardInterrupt =>
    refine ⟨?_, by simp [apProcessStatus], ?_, by simp [steProcessStatus]⟩
    · intro st side hs
      exact absurd hs (by simp [apProcessStatus])
    · intro st hs
      exact absurd hs (by simp [steProcessStatus])
  | otherError =>
    refine ⟨?_, by simp [apProcessStatus], ?_, by simp [steProcessStatus]⟩
    · intro st side hs
      injection hs with hs
      injection hs with h1 h2
      subst h1
      subst h2
      refine ⟨by simp, by simp, by simp, by simp⟩
    · intro st hs
      injection hs with hs
      subst hs
      simp

/-- Witness for the amended C4 at the XML-well-formedness outcome. -/
theorem C4_amended_status_machine_witness :
    apProcessStatus (.xmlSyntax (some "μερικό σώμα")) = some ("xml_syntax_error", some "μερικό σώμα")
    ∧ ("xml_syntax_error" ∈ ["ok", "xml_syntax_error", "unhandled_error"]
        ∧ ("xml_syntax_error" = "xml_syntax_error" ↔
            ∃ b, TryOutcome.xmlSyntax (some "μερικό σώμα") = TryOutcome.xmlSyntax b)
        ∧ (∀ b, TryOutcome.xmlSyntax (some "μερικό σώμα") = TryOutcome.xmlSyntax b →
            some "μερικό σώμα" = some (b.getD ""))
        ∧ (TryOutcome.xmlSyntax (some "μερικό σώμα") = TryOutcome.otherError →
            some "μερικό σώμα" = some "")) :=
  ⟨rfl, (C4_amended_status_machine (.xmlSyntax (some "μερικό σώμα"))).1
    "xml_syntax_error" (some "μερικό σώμα") rfl⟩

/-! ## Claims about the two Areios Pagos pipelines -/

/-- C5 counterexample: on a filename that does not match the metadata
pattern, the legacy loop raises a key lookup error while building the
judgment object — the generic handler writes an empty side file and no
XML artifact — whereas the parallel CLI proceeds with empty metadata
fields and writes an artifact; the two are not byte-identical for that
file. -/
theorem C5_counterexample :
    apLegacyRun ⟨fun s => s, fun _ s => s, fun m => m.issueYear, none,
        fun _ x => x, fun _ x => x, fun s => s, fun a b => a ++ b⟩
      "foo.txt" "κείμενο" = none
    ∧ (apFastRun ⟨fun s => s, fun _ s => s, fun m => m.issueYear, none,
        fun _ x => x, fun _ x => x, fun s => s, fun a b => a ++ b⟩
      "foo.txt" "κείμενο").isSome = true := by
  refine ⟨rfl, rfl⟩

/-- C5 as amended: for every filename matching the decision-number
pattern, and identical collaborator behaviour, the parallel CLI produces
an artifact byte-identical to the legacy loop (the two scripts compose
the same collaborator calls, only interleaved differently); for a
non-matching filename the legacy loop writes no artifact while the
parallel CLI writes one; and the batch artifact mapping of the parallel
CLI is invariant under any permutation of the submitted task list, so
worker count and completion order cannot change any output byte. -/
theorem C5_amended_pipeline_equivalence (w : ApWorld) (name text : String) :
    (∀ num yr, apMetaSearch name.data = some (num, yr) →
        apLegacyRun w name text = apFastRun w name text)
    ∧ (apMetaSearch name.data = none →
        apLegacyRun w name text = none ∧ (apFastRun w name text).isSome = true)
    ∧ (∀ tasks1 tasks2 : List (String × String), tasks1.Perm tasks2 →
        apBatchArtifact w tasks1 = apBatchArtifact w tasks2) := by
  refine ⟨?_, ?_, ?_⟩
  · intro num yr h
    simp [apLegacyRun, apFastRun, apLegacyMeta, apFastMeta, h]
  · intro h
    simp [apLegacyRun, apFastRun, apLegacyMeta, apFastMeta, h]
  · intro t1 t2 hperm
    funext t
    simp [apBatchArtifact, hperm.mem_iff]

/-- Witness for the amended C5 at a matching filename and a concrete
collaborator world. -/
theorem C5_amended_pipeline_equivalence_witness :
    apLegacyRun ⟨fun s => s, fun _ s => s, fun m => m.decisionNumber, none,
        fun _ x => x, fun _ x => x, fun s => s, fun a b => a ++ b⟩
      "Ar 123_2024.txt" "κείμενο" =
    apFastRun ⟨fun s => s, fun _ s => s, fun m => m.decisionNumber, none,
        fun _ x => x, fun _ x => x, fun s => s, fun a b => a ++ b⟩
      "Ar 123_2024.txt" "κείμενο" :=
  (C5_amended_pipeline_equivalence _ "Ar 123_2024.txt" "κείμενο").1
    "123" "2024" (by decide)

/-! ## Claims about the Council of State overrides -/

/-- C9 counterexample: two inputs identical except that the second lacks
the trial-formula anchor line produce the same docNumber, docProponent
and subDepartment but different headerDetails — with the anchor, the
override collects all non-blank lines up to it (past blank lines); without
it, only up to the first blank line — so the header override is not
independent of the introduction anchor. -/
theorem C9_counterexample :
    (steProcessFragment (fun _ => none) "κεφαλίδα" "εισαγωγή"
        ["Αριθμός 123/2024", "Πρόεδρος Τάδε", "Τμήμα Β1", "λεπτ1", "", "λεπτ2",
         "Για να δικάσει την αίτηση"]).header =
      ⟨.overridden "123/2024" "Πρόεδρος Τάδε" "Τμήμα Β1" (some "λεπτ1 λεπτ2"), []⟩
    ∧ (steProcessFragment (fun _ => none) "κεφαλίδα" "εισαγωγή"
        ["Αριθμός 123/2024", "Πρόεδρος Τάδε", "Τμήμα Β1", "λεπτ1", "", "λεπτ2",
         "Τέλος εγγράφου"]).header =
      ⟨.overridden "123/2024" "Πρόεδρος Τάδε" "Τμήμα Β1" (some "λεπτ1"), []⟩ := by
  refine ⟨by decide, by decide⟩

/-- C9 as amended: the first three header-override fields (docNumber,
docProponent, subDepartment) are computed independently of the
trial-formula anchor, and the introduction override is computed
independently of the document-number anchor; each override either fully
applies (rebuilding its node from its complete field set) or is fully
skipped, leaving the extractor node; but headerDetails does depend on the
trial-formula anchor — with the anchor it collects the lines up to the
anchor, without it only up to the first blank line — so full independence
fails exactly there. -/
theorem C9_amended_override_independence (raw_lines : List String) (i : Nat)
    (o1 o2 : Option Nat) :
    (steHeaderFields raw_lines i o1).docNumber = (steHeaderFields raw_lines i o2).docNumber
    ∧ (steHeaderFields raw_lines i o1).docProponent
        = (steHeaderFields raw_lines i o2).docProponent
    ∧ (steHeaderFields raw_lines i o1).subDepartment
        = (steHeaderFields raw_lines i o2).subDepartment
    ∧ (∀ (resolve : Resolver) (h0 i0 : String),
        (steProcessFragment resolve h0 i0 raw_lines).intro =
          (if find_index (raw_lines.map normalize_gr)
              (fun ln => pyStartsWith ln "για να δικ") ≠ -1 then
            IntroContent.overridden (steIntroParas (steIntroBlock raw_lines
              (find_index (raw_lines.map normalize_gr)
                (fun ln => pyStartsWith ln "για να δικ")).toNat))
          else .fromExtractor i0))
    ∧ (∀ (resolve : Resolver) (h0 i0 : String),
        (steProcessFragment resolve h0 i0 raw_lines).header.content =
          (let idxN := find_index (raw_lines.map normalize_gr)
              (fun ln => pyStartsWith ln "αριθμος" || pyStartsWith ln "αριθμ.")
           let idxI := find_index (raw_lines.map normalize_gr)
              (fun ln => pyStartsWith ln "για να δικ")
           let f := steHeaderFields raw_lines idxN.toNat
              (if idxI ≠ -1 then some idxI.toNat else none)
           if idxN ≠ -1 then
             HeaderContent.overridden f.docNumber f.docProponent f.subDepartment
               (if f.headerDetails ≠ "" then some f.headerDetails else none)
           else .fromExtractor h0)) := by
  refine ⟨rfl, rfl, rfl, ?_, ?_⟩
  · intro resolve h0 i0
    rfl
  · intro resolve h0 i0
    simp only [steProcessFragment]
    by_cases hH : find_index (raw_lines.map normalize_gr)
        (fun ln => pyStartsWith ln "αριθμος" || pyStartsWith ln "αριθμ.") ≠ -1
    · simp only [if_pos hH]
      split <;> rfl
    · simp only [if_neg hH]
      split <;> rfl

/-- Witness for the amended C9 at concrete lines and intro-anchor
arguments. -/
theorem C9_amended_override_independence_witness :
    (steHeaderFields ["Αριθμός 123/2024", "Πρόεδρος Τάδε", "Τμήμα Β1", "λεπτ1"]
        0 (some 3)).docNumber =
      (steHeaderFields ["Αριθμός 123/2024", "Πρόεδρος Τάδε", "Τμήμα Β1", "λεπτ1"]
        0 none).docNumber :=
  (C9_amended_override_independence
    ["Αριθμός 123/2024", "Πρόεδρος Τάδε", "Τμήμα Β1", "λεπτ1"] 0 (some 3) none).1
